import Mathlib

/-!
Shallow embedding of `contrib/forseti-ia/resources/firewall_rule.py`.

The Python module defines a class `FirewallRule` with a constructor storing ten
fields, a classmethod `from_json` that flattens one firewall-rule resource
(given as JSON text) into a list of `FirewallRule` records, and a classmethod
`_flatten_ports` that expands a list of port tokens into a deduplicated set of
integers.

JSON values are modelled by the inductive `JValue`; a parsed top-level object
is an association list (Python dict, first-match lookup).  Python runtime
failures are modelled by `PyError`, one constructor per raise site:

* `jsonDecodeError` : `json.loads` fails (input text is not valid JSON);
* `attributeError`  : `.upper()` on `None` or a non-string (line 117), or
  `.split` / `.get` called on a value that lacks the method (lines 122, 135);
* `typeError`       : iterating `None` or a non-iterable value
  (lines 122, 132, 134, 139, 177);
* `unpackError`     : Python ValueError from unpacking a split CIDR into
  `(ip_addr, ip_bits)` when the split does not have exactly two parts
  (line 133);
* `intParseError`   : Python ValueError from `int()` on a non-numeric token
  (lines 181, 182, 187).

The embedding keeps the source's evaluation order so that which error
surfaces first, and whether an error surfaces at all when the cross-product
loops never run, matches the Python.
-/

inductive JValue : Type where
  | null : JValue
  | bool : Bool → JValue
  | num : Int → JValue
  | str : String → JValue
  | arr : List JValue → JValue
  | obj : List (String × JValue) → JValue

/-- A parsed top-level JSON object (Python dict) as an association list. -/
abbrev JObj := List (String × JValue)

inductive PyError : Type where
  | jsonDecodeError : PyError
  | attributeError : PyError
  | typeError : PyError
  | unpackError : PyError
  | intParseError : PyError
deriving DecidableEq

/-- Python `k in d` for a dict. -/
def hasKey (d : JObj) (k : String) : Bool :=
  d.any (fun kv => kv.1 == k)

/-- Python `d.get(k)`: the value of the first matching key, or None. -/
def lookup (d : JObj) (k : String) : Option JValue :=
  match d.find? (fun kv => kv.1 == k) with
  | some kv => some kv.2
  | none => none

/-- Split a character list at every occurrence of `sep`, Python
`str.split(sep)` semantics for a one-character separator. -/
def splitOnChar (sep : Char) : List Char → List (List Char)
  | [] => [[]]
  | c :: rest =>
    let r := splitOnChar sep rest
    if c = sep then [] :: r
    else
      match r with
      | h :: t => (c :: h) :: t
      | [] => [[c]]

/-- Python `s.split(sep)` for a one-character separator. -/
def pySplit (sep : Char) (s : String) : List String :=
  (splitOnChar sep s.data).map (fun l => String.mk l)

/-- The numeric value of a nonempty all-digit character list. -/
def digitsVal (cs : List Char) : Option Nat :=
  if cs ≠ [] ∧ cs.all Char.isDigit then
    some (cs.foldl (fun a c => a * 10 + (c.toNat - 48)) 0)
  else none

/-- Python `int(s)` on the token shapes the module feeds it: an optional
leading minus sign followed by decimal digits; anything else raises
ValueError (`none` here). -/
def pyInt (s : String) : Option Int :=
  match s.data with
  | [] => none
  | '-' :: rest => (digitsVal rest).map (fun n => -(n : Int))
  | cs => (digitsVal cs).map (fun n => (n : Int))

/-- Python iteration over a value: a list yields its elements, a string
yields its characters as one-character strings, a dict yields its keys,
anything else raises TypeError. -/
def pyIter : JValue → Except PyError (List JValue)
  | .arr xs => .ok xs
  | .str s => .ok (s.data.map (fun c => .str (String.mk [c])))
  | .obj kvs => .ok (kvs.map (fun kv => .str kv.1))
  | _ => .error .typeError

/-- Iterate a value that may be absent: Python `for x in d.get(k, [])`
yields nothing when the key is absent, TypeError when the present value is
not iterable. -/
def pyIterDefault : Option JValue → Except PyError (List JValue)
  | none => .ok []
  | some v => pyIter v

/-- Iterate a value bound by `d.get(k)` with no default: Python raises
TypeError when the key is absent (iterating None). -/
def pyIterOpt : Option JValue → Except PyError (List JValue)
  | none => .error .typeError
  | some v => pyIter v

/-- Left-to-right effectful map over a list, stopping at the first error:
the evaluation order of a Python `for` loop over the list. -/
def exceptMapM {α β : Type} (f : α → Except PyError β) :
    List α → Except PyError (List β)
  | [] => .ok []
  | x :: xs => do
    let y ← f x
    let ys ← exceptMapM f xs
    pure (y :: ys)

/-- Python `range(a, b + 1)` as a list of integers, line 183. -/
def pyRange (a b : Int) : List Int :=
  (List.range (b + 1 - a).toNat).map (fun (i : Nat) => a + (i : Int))

/-- One iteration of the `for port in ports` loop of `_flatten_ports`
(lines 177-187): a token holding a hyphen is split and expanded as an
inclusive range, any other token is parsed as a single port. -/
def flattenPortToken : JValue → Except PyError (List Int)
  | .str s =>
    if s.data.contains '-' then
      match pySplit '-' s with
      | p0 :: p1 :: _ =>
        match pyInt p0, pyInt p1 with
        | some a, some b => .ok (pyRange a b)
        | _, _ => .error .intParseError
      | _ => .error .typeError
    else
      match pyInt s with
      | some n => .ok [n]
      | none => .error .intParseError
  | _ => .error .typeError

/-- `FirewallRule._flatten_ports` (lines 155-197): iterate the `ports`
value, expand every token, deduplicate via `list(set(...))`.  The
deduplicated collection is modelled as a `Finset` because Python gives the
final list no specified order. -/
def flatten_ports (portsVal : Option JValue) : Except PyError (Finset Int) := do
  let ports ← pyIterDefault portsVal
  let chunks ← exceptMapM flattenPortToken ports
  pure chunks.flatten.toFinset

/-- The flattened firewall rule object built by the `FirewallRule`
constructor (lines 67-87). -/
structure FirewallRule : Type where
  creation_timestamp : Option JValue
  priority : Option JValue
  ip_addr : String
  ip_bits : String
  identifier : JValue
  action : String
  ip_protocol : JValue
  ports : Finset Int
  direction : String
  disabled : Bool

instance instDecEqExcept {ε α : Type} [DecidableEq ε] [DecidableEq α] :
    DecidableEq (Except ε α) := fun x y =>
  match x, y with
  | .error a, .error b =>
    if h : a = b then .isTrue (congrArg Except.error h)
    else .isFalse (fun hh => h (Except.error.inj hh))
  | .ok a, .ok b =>
    if h : a = b then .isTrue (congrArg Except.ok h)
    else .isFalse (fun hh => h (Except.ok.inj hh))
  | .error _, .ok _ => .isFalse (fun hh => Except.noConfusion hh)
  | .ok _, .error _ => .isFalse (fun hh => Except.noConfusion hh)

/-- Lines 103-106: `action = 'allowed'` unless the key is absent, in which
case `action = 'denied'`. -/
def pyAction (d : JObj) : String :=
  if hasKey d "allowed" then "allowed" else "denied"

/-- Lines 108-113: the identifier collection, iterated at line 132. -/
def identifiersOf (d : JObj) : Except PyError (List JValue) :=
  if hasKey d "targetServiceAccounts" then pyIterOpt (lookup d "targetServiceAccounts")
  else if hasKey d "targetTags" then pyIterOpt (lookup d "targetTags")
  else .ok []

/-- Python `str.upper()` on the ASCII direction strings the module
compares: uppercase every character. -/
def pyUpper (s : String) : String :=
  String.mk (s.data.map Char.toUpper)

/-- Lines 115-117: `json_dict.get('direction').upper()` succeeds only on a
present string value; on `None` or any non-string it raises AttributeError. -/
def directionStr (d : JObj) : Except PyError String :=
  match lookup d "direction" with
  | some (.str s) => .ok s
  | _ => .error .attributeError

/-- Lines 117-120: the range list selected by the direction. -/
def rangesVal (d : JObj) (dir : String) : Option JValue :=
  if pyUpper dir == "INGRESS" then lookup d "sourceRanges"
  else lookup d "destinationRanges"

/-- Line 122: split every CIDR entry on `/`; the entry must be a string
(else AttributeError on `.split`) and the range value must be iterable and
present (else TypeError). -/
def cidrSplits (v : Option JValue) : Except PyError (List (List String)) := do
  let elems ← pyIterOpt v
  exceptMapM (fun e =>
    match e with
    | .str s => .ok (pySplit '/' s)
    | _ => .error .attributeError) elems

/-- Line 124: `json_dict.get(action, [])`. -/
def permissionList (d : JObj) : Option JValue :=
  lookup d (pyAction d)

/-- Line 130: `False if json_dict.get('disabled') == 'false' else True`.
Python `==` against the string 'false' holds only for an equal string; the
booleans, None, numbers and every other string compare unequal. -/
def pyDisabled (v : Option JValue) : Bool :=
  match v with
  | some (.str s) => if s = "false" then false else true
  | _ => true

/-- Lines 134-152: innermost loops.  For each protocol mapping: `.get` the
protocol names and ports (AttributeError unless the mapping is a dict),
expand the ports, then iterate the protocol names and emit one record per
name. -/
def loopProtocols (ct pr : Option JValue) (ip_addr ip_bits : String)
    (identifier : JValue) (action : String) (direction : String)
    (disabled : Bool) : List JValue → Except PyError (List FirewallRule)
  | [] => .ok []
  | pm :: rest => do
    match pm with
    | .obj kvs =>
      let ipProtocolsVal := lookup kvs "IPProtocol"
      let portsVal := lookup kvs "ports"
      let fports ← flatten_ports portsVal
      let protos ← pyIterDefault ipProtocolsVal
      let recs := protos.map (fun p =>
        FirewallRule.mk ct pr ip_addr ip_bits identifier action p fports
          direction disabled)
      let rrest ← loopProtocols ct pr ip_addr ip_bits identifier action
        direction disabled rest
      pure (recs ++ rrest)
    | _ => .error .attributeError

/-- Line 133: middle loop over `(ip_addr, ip_bits)` pairs; unpacking a
split with other than two parts raises ValueError at the iteration that
reaches it. -/
def loopCidrs (ct pr : Option JValue) (identifier : JValue) (action : String)
    (direction : String) (disabled : Bool) (protoVal : Option JValue) :
    List (List String) → Except PyError (List FirewallRule)
  | [] => .ok []
  | pair :: rest => do
    match pair with
    | [ip_addr, ip_bits] =>
      let protos ← pyIterDefault protoVal
      let here ← loopProtocols ct pr ip_addr ip_bits identifier action
        direction disabled protos
      let there ← loopCidrs ct pr identifier action direction disabled
        protoVal rest
      pure (here ++ there)
    | _ => .error .unpackError

/-- Line 132: outer loop over identifiers. -/
def loopIdentifiers (ct pr : Option JValue) (action : String)
    (direction : String) (disabled : Bool) (protoVal : Option JValue)
    (pairs : List (List String)) :
    List JValue → Except PyError (List FirewallRule)
  | [] => .ok []
  | identifier :: rest => do
    let here ← loopCidrs ct pr identifier action direction disabled
      protoVal pairs
    let there ← loopIdentifiers ct pr action direction disabled protoVal
      pairs rest
    pure (here ++ there)

/-- `FirewallRule.from_json` (lines 89-153) applied to an already parsed
top-level object, preserving the source's evaluation order: action and
identifier selection, direction, eager CIDR splitting, permission list and
scalar fields, then the nested cross-product loops. -/
def from_json (d : JObj) : Except PyError (List FirewallRule) := do
  let action := pyAction d
  let dir ← directionStr d
  let pairs ← cidrSplits (rangesVal d dir)
  let protoVal := permissionList d
  let ct := lookup d "creationTimestamp"
  let pr := lookup d "priority"
  let disabled := pyDisabled (lookup d "disabled")
  let identifiers ← identifiersOf d
  loopIdentifiers ct pr action dir disabled protoVal pairs identifiers

/-- Line 101 around the rest: `json.loads` either yields a top-level object
or raises; unparseable input text is modelled as `none`. -/
def flatten (parsed : Option JObj) : Except PyError (List FirewallRule) :=
  match parsed with
  | none => .error .jsonDecodeError
  | some d => from_json d

/-! ### Spec-side definitions

`PortSpec` and `specPortSet` are written from the spec's words: a valid
port spec is either a single decimal integer or a two-part hyphenated
inclusive range with low bound at most high bound, and its mathematical
expansion is the singleton or the inclusive integer interval.
`tokenMatches` relates a source-level string token to the spec value it
denotes. -/

inductive PortSpec : Type where
  | single : Int → PortSpec
  | range : Int → Int → PortSpec

/-- The spec's expansion of one port spec: a singleton, or every integer
in the inclusive interval. -/
def specPortSet : PortSpec → Finset Int
  | .single n => {n}
  | .range a b => Finset.Icc a b

/-- The string token denoting a port spec: a pure integer literal (no
hyphen), or two integer literals joined by one hyphen with low bound at
most high bound. -/
def tokenMatches : String → PortSpec → Prop
  | s, .single n => s.data.contains '-' = false ∧ pyInt s = some n
  | s, .range a b => ∃ s1 s2, s = s1 ++ "-" ++ s2 ∧ '-' ∉ s1.data ∧
      '-' ∉ s2.data ∧ pyInt s1 = some a ∧ pyInt s2 = some b ∧ a ≤ b

/-- One permission entry together with the number of protocol names it
yields: the entry is a dict, its ports expand without error, and its
`IPProtocol` value iterates to a list of the stated length. -/
def protoEntryLen (pm : JValue) (n : Nat) : Prop :=
  ∃ kvs protos S, pm = JValue.obj kvs ∧
    flatten_ports (lookup kvs "ports") = .ok S ∧
    pyIterDefault (lookup kvs "IPProtocol") = .ok protos ∧
    protos.length = n

/-! ### Concrete inputs used by the per-claim witnesses and
counterexamples -/

/-- A resource whose `disabled` field is the JSON boolean false. -/
def boolFalseDisabledInput : JObj :=
  [("direction", .str "INGRESS"), ("disabled", .bool false),
   ("sourceRanges", .arr [.str "10.0.0.0/9"]),
   ("targetTags", .arr [.str "web"]),
   ("allowed", .arr [.obj [("IPProtocol", .arr [.str "tcp"]),
     ("ports", .arr [.str "22"])]])]

/-- A resource whose `disabled` field is the JSON string "false". -/
def strFalseDisabledInput : JObj :=
  [("direction", .str "ingress"), ("disabled", .str "false"),
   ("sourceRanges", .arr [.str "10.0.0.0/9"]),
   ("targetTags", .arr [.str "web"]),
   ("allowed", .arr [.obj [("IPProtocol", .arr [.str "tcp"])]])]

/-- One identifier, one CIDR, one permission entry naming two protocols. -/
def twoProtocolInput : JObj :=
  [("direction", .str "INGRESS"),
   ("sourceRanges", .arr [.str "10.0.0.0/9"]),
   ("targetServiceAccounts", .arr [.str "sa1"]),
   ("allowed", .arr [.obj [("IPProtocol", .arr [.str "tcp", .str "udp"]),
     ("ports", .arr [.str "1", .str "50051"])]])]

/-- A lowercase `direction` value, exercising the case-insensitive
comparison. -/
def lowercaseDirectionInput : JObj :=
  [("direction", .str "iNgReSs"),
   ("sourceRanges", .arr [.str "192.168.0.0/16"]),
   ("targetTags", .arr [.str "db"]),
   ("allowed", .arr [.obj [("IPProtocol", .arr [.str "udp"])]])]

/-- A CIDR entry with no slash and no identifier field at all. -/
def badCidrNoTargetInput : JObj :=
  [("direction", .str "INGRESS"), ("sourceRanges", .arr [.str "nocidr"])]

/-- A CIDR entry with no slash together with one identifier. -/
def badCidrWithTargetInput : JObj :=
  [("direction", .str "INGRESS"), ("sourceRanges", .arr [.str "nocidr"]),
   ("targetTags", .arr [.str "t"])]

/-- An egress resource with no identifier field. -/
def egressNoTargetInput : JObj :=
  [("direction", .str "EGRESS"),
   ("destinationRanges", .arr [.str "0.0.0.0/0"])]

/-- A resource with identifiers and ranges but neither `allowed` nor
`denied`. -/
def noActionInput : JObj :=
  [("direction", .str "EGRESS"),
   ("destinationRanges", .arr [.str "0.0.0.0/0"]),
   ("targetTags", .arr [.str "t"])]

/-- A resource with a `denied` permission list. -/
def deniedActionInput : JObj :=
  [("direction", .str "INGRESS"),
   ("sourceRanges", .arr [.str "10.1.0.0/16"]),
   ("targetTags", .arr [.str "t"]),
   ("denied", .arr [.obj [("IPProtocol", .arr [.str "icmp"])]])]

/-- No identifiers, malformed CIDR, unparseable port token: the loops never
run and none of that is validated. -/
def deferredValidationInput : JObj :=
  [("direction", .str "INGRESS"),
   ("sourceRanges", .arr [.str "noslash"]),
   ("allowed", .arr [.obj [("IPProtocol", .arr [.str "tcp"]),
     ("ports", .arr [.str "xx"])]])]

/-- Two identifiers, producing two records sharing the scalar fields. -/
def twoIdentifierInput : JObj :=
  [("direction", .str "EGRESS"), ("priority", .num 1000),
   ("creationTimestamp", .str "2018-02-28T21:49:07.739-08:00"),
   ("destinationRanges", .arr [.str "0.0.0.0/0"]),
   ("targetTags", .arr [.str "a", .str "b"]),
   ("denied", .arr [.obj [("IPProtocol", .arr [.str "tcp"]),
     ("ports", .arr [.str "443"])]])]

/-! ### Basic lemmas about the `Except` plumbing -/

@[simp]
theorem pyError_bind {α β : Type} (e : PyError) (f : α → Except PyError β) :
    (Except.error e : Except PyError α) >>= f = .error e := rfl

@[simp]
theorem pyOk_bind {α β : Type} (a : α) (f : α → Except PyError β) :
    (Except.ok a : Except PyError α) >>= f = f a := rfl

@[simp]
theorem pyPure_eq_ok {α : Type} (a : α) :
    (pure a : Except PyError α) = .ok a := rfl

theorem pyBind_eq_ok {α β : Type} {x : Except PyError α}
    {f : α → Except PyError β} {b : β} :
    x >>= f = .ok b ↔ ∃ a, x = .ok a ∧ f a = .ok b := by
  cases x with
  | error e =>
    simp only [pyError_bind]
    constructor
    · intro h; exact Except.noConfusion h
    · rintro ⟨a, ha, _⟩; exact Except.noConfusion ha
  | ok a =>
    simp only [pyOk_bind]
    constructor
    · intro h; exact ⟨a, rfl, h⟩
    · rintro ⟨a2, ha, hf⟩; cases ha; exact hf

/-! ### Lemmas about dict lookup -/

theorem lookup_eq_none_of_not_hasKey {d : JObj} {k : String}
    (h : hasKey d k = false) : lookup d k = none := by
  unfold lookup
  cases hf : d.find? (fun kv => kv.1 == k) with
  | none => rfl
  | some kv =>
    exfalso
    have hp := List.find?_some hf
    have hm := List.mem_of_find?_eq_some hf
    have : d.any (fun kv => kv.1 == k) = true :=
      List.any_eq_true.mpr ⟨kv, hm, hp⟩
    rw [hasKey] at h
    rw [h] at this
    exact Bool.noConfusion this

/-! ### Lemmas about splitting -/

theorem splitOnChar_of_not_mem {sep : Char} {l : List Char}
    (h : sep ∉ l) : splitOnChar sep l = [l] := by
  induction l with
  | nil => rfl
  | cons c rest ih =>
    have hc : ¬ c = sep := fun hcc => h (hcc ▸ List.mem_cons_self c rest)
    have hrest : sep ∉ rest := fun hm => h (List.mem_cons_of_mem c hm)
    rw [splitOnChar]
    simp only [if_neg hc, ih hrest]

theorem splitOnChar_append {sep : Char} {l1 : List Char}
    (h : sep ∉ l1) (l2 : List Char) :
    splitOnChar sep (l1 ++ sep :: l2) = l1 :: splitOnChar sep l2 := by
  induction l1 with
  | nil =>
    rw [List.nil_append, splitOnChar]
    simp
  | cons c rest ih =>
    have hc : ¬ c = sep := fun hcc => h (hcc ▸ List.mem_cons_self c rest)
    have hrest : sep ∉ rest := fun hm => h (List.mem_cons_of_mem c hm)
    rw [List.cons_append, splitOnChar]
    simp only [if_neg hc, ih hrest]

theorem mk_data (s : String) : String.mk s.data = s := rfl

theorem pySplit_two {s1 s2 : String} (h1 : '-' ∉ s1.data)
    (h2 : '-' ∉ s2.data) :
    pySplit '-' (s1 ++ "-" ++ s2) = [s1, s2] := by
  have hdata : (s1 ++ "-" ++ s2).data = s1.data ++ '-' :: s2.data := by
    rw [String.data_append, String.data_append,
      show ("-" : String).data = ['-'] from rfl, List.append_assoc]
    rfl
  rw [pySplit, hdata, splitOnChar_append h1, splitOnChar_of_not_mem h2]
  simp [mk_data]

/-! ### Lemmas about `pyRange` -/

theorem pyRange_mem {a b n : Int} : n ∈ pyRange a b ↔ a ≤ n ∧ n ≤ b := by
  unfold pyRange
  simp only [List.mem_map, List.mem_range]
  constructor
  · rintro ⟨i, hi, rfl⟩
    omega
  · rintro ⟨hab, hnb⟩
    exact ⟨(n - a).toNat, by omega, by omega⟩

theorem pyRange_empty {a b : Int} (h : b < a) : pyRange a b = [] := by
  unfold pyRange
  have : (b + 1 - a).toNat = 0 := by omega
  rw [this]
  rfl

/-! ### The port expander against the spec's description -/

theorem flattenPortToken_matches {s : String} {sp : PortSpec}
    (h : tokenMatches s sp) :
    ∃ lst, flattenPortToken (.str s) = .ok lst ∧
      ∀ n : Int, n ∈ lst ↔ n ∈ specPortSet sp := by
  cases sp with
  | single n =>
    obtain ⟨hc, hp⟩ := h
    refine ⟨[n], ?_, ?_⟩
    · rw [flattenPortToken, if_neg (by rw [hc]; exact Bool.noConfusion), hp]
    · intro m
      simp [specPortSet]
  | range a b =>
    obtain ⟨s1, s2, rfl, h1, h2, hp1, hp2, hab⟩ := h
    have hdata : (s1 ++ "-" ++ s2).data = s1.data ++ '-' :: s2.data := by
      rw [String.data_append, String.data_append,
        show ("-" : String).data = ['-'] from rfl, List.append_assoc]
      rfl
    have hc : (s1 ++ "-" ++ s2).data.contains '-' = true := by
      rw [hdata]
      simp
    refine ⟨pyRange a b, ?_, ?_⟩
    · rw [flattenPortToken, if_pos hc, pySplit_two h1 h2]
      simp [hp1, hp2]
    · intro m
      rw [pyRange_mem]
      simp [specPortSet]

theorem exceptMapM_tokens {toks : List String} {specs : List PortSpec}
    (h : List.Forall₂ tokenMatches toks specs) :
    ∃ chunks, exceptMapM flattenPortToken (toks.map JValue.str) = .ok chunks ∧
      List.Forall₂ (fun (c : List Int) sp => ∀ n : Int,
        n ∈ c ↔ n ∈ specPortSet sp) chunks specs := by
  induction h with
  | nil => exact ⟨[], rfl, List.Forall₂.nil⟩
  | cons htok _ ih =>
    obtain ⟨chunks, hmap, hall⟩ := ih
    obtain ⟨lst, htok2, hmem⟩ := flattenPortToken_matches htok
    refine ⟨lst :: chunks, ?_, List.Forall₂.cons hmem hall⟩
    rw [List.map_cons, exceptMapM, htok2, pyOk_bind, hmap, pyOk_bind,
      pyPure_eq_ok]

theorem forall₂_mem_union {chunks : List (List Int)} {specs : List PortSpec}
    (hall : List.Forall₂ (fun (c : List Int) sp => ∀ n : Int,
      n ∈ c ↔ n ∈ specPortSet sp) chunks specs) (n : Int) :
    (∃ c ∈ chunks, n ∈ c) ↔ ∃ sp ∈ specs, n ∈ specPortSet sp := by
  induction hall with
    | nil => simp
    | cons h _ ih =>
      simp only [List.mem_cons]
      constructor
      · rintro ⟨c, hc | hc, hn⟩
        · exact ⟨_, Or.inl rfl, (h n).mp (hc ▸ hn)⟩
        · obtain ⟨sp, hsp, hn2⟩ := ih.mp ⟨c, hc, hn⟩
          exact ⟨sp, Or.inr hsp, hn2⟩
      · rintro ⟨sp, hsp | hsp, hn⟩
        · exact ⟨_, Or.inl rfl, (h n).mpr (hsp ▸ hn)⟩
        · obtain ⟨c, hc, hn2⟩ := ih.mpr ⟨sp, hsp, hn⟩
          exact ⟨c, Or.inr hc, hn2⟩

/-- The port expander on a list of matching tokens succeeds and returns
exactly the union of the spec-side expansions. -/
theorem flatten_ports_spec {toks : List String} {specs : List PortSpec}
    (h : List.Forall₂ tokenMatches toks specs) :
    ∃ S, flatten_ports (some (.arr (toks.map JValue.str))) = .ok S ∧
      ∀ n : Int, n ∈ S ↔ ∃ sp ∈ specs, n ∈ specPortSet sp := by
  obtain ⟨chunks, hmap, hall⟩ := exceptMapM_tokens h
  refine ⟨chunks.flatten.toFinset, ?_, ?_⟩
  · rw [flatten_ports, show pyIterDefault (some (.arr (toks.map JValue.str)))
      = .ok (toks.map JValue.str) from rfl, pyOk_bind, hmap, pyOk_bind,
      pyPure_eq_ok]
  · intro n
    rw [List.mem_toFinset, List.mem_flatten]
    exact forall₂_mem_union hall n

/-! ### Field characterization of the cross-product loops -/

theorem loopProtocols_fields {ct pr : Option JValue} {a b : String}
    {ident : JValue} {act dir : String} {dis : Bool} :
    ∀ {pms : List JValue} {res : List FirewallRule},
    loopProtocols ct pr a b ident act dir dis pms = .ok res →
    ∀ r ∈ res, r.creation_timestamp = ct ∧ r.priority = pr ∧ r.ip_addr = a ∧
      r.ip_bits = b ∧ r.identifier = ident ∧ r.action = act ∧
      r.direction = dir ∧ r.disabled = dis := by
  intro pms
  induction pms with
  | nil =>
    intro res h r hr
    rw [loopProtocols] at h
    cases h
    exact absurd hr (List.not_mem_nil r)
  | cons pm rest ih =>
    intro res h r hr
    cases pm with
    | obj kvs =>
      rw [loopProtocols] at h
      obtain ⟨fports, hfp, h⟩ := pyBind_eq_ok.mp h
      obtain ⟨protos, hpi, h⟩ := pyBind_eq_ok.mp h
      obtain ⟨rrest, hrec, h⟩ := pyBind_eq_ok.mp h
      rw [pyPure_eq_ok] at h
      cases h
      rcases List.mem_append.mp hr with hin | hin
      · obtain ⟨p, _, rfl⟩ := List.mem_map.mp hin
        exact ⟨rfl, rfl, rfl, rfl, rfl, rfl, rfl, rfl⟩
      · exact ih hrec r hin
    | null => simp [loopProtocols] at h
    | bool v => simp [loopProtocols] at h
    | num v => simp [loopProtocols] at h
    | str v => simp [loopProtocols] at h
    | arr v => simp [loopProtocols] at h

theorem loopCidrs_fields {ct pr : Option JValue} {ident : JValue}
    {act dir : String} {dis : Bool} {protoVal : Option JValue} :
    ∀ {pairs : List (List String)} {res : List FirewallRule},
    loopCidrs ct pr ident act dir dis protoVal pairs = .ok res →
    ∀ r ∈ res, r.creation_timestamp = ct ∧ r.priority = pr ∧
      r.identifier = ident ∧ r.action = act ∧ r.direction = dir ∧
      r.disabled = dis ∧ [r.ip_addr, r.ip_bits] ∈ pairs := by
  intro pairs
  induction pairs with
  | nil =>
    intro res h r hr
    rw [loopCidrs] at h
    cases h
    exact absurd hr (List.not_mem_nil r)
  | cons pair rest ih =>
    intro res h r hr
    cases pair with
    | nil => simp [loopCidrs] at h
    | cons x xs =>
      cases xs with
      | nil => simp [loopCidrs] at h
      | cons y ys =>
        cases ys with
        | cons z zs => simp [loopCidrs] at h
        | nil =>
          rw [loopCidrs] at h
          obtain ⟨protos, hpi, h⟩ := pyBind_eq_ok.mp h
          obtain ⟨here, hhere, h⟩ := pyBind_eq_ok.mp h
          obtain ⟨there, hthere, h⟩ := pyBind_eq_ok.mp h
          rw [pyPure_eq_ok] at h
          cases h
          rcases List.mem_append.mp hr with hin | hin
          · obtain ⟨h1, h2, h3, h4, h5, h6, h7, h8⟩ :=
              loopProtocols_fields hhere r hin
            refine ⟨h1, h2, h5, h6, h7, h8, ?_⟩
            rw [h3, h4]
            exact List.mem_cons_self _ _
          · obtain ⟨h1, h2, h3, h4, h5, h6, h7⟩ := ih hthere r hin
            exact ⟨h1, h2, h3, h4, h5, h6, List.mem_cons_of_mem _ h7⟩

theorem loopIdentifiers_fields {ct pr : Option JValue} {act dir : String}
    {dis : Bool} {protoVal : Option JValue} {pairs : List (List String)} :
    ∀ {ids : List JValue} {res : List FirewallRule},
    loopIdentifiers ct pr act dir dis protoVal pairs ids = .ok res →
    ∀ r ∈ res, r.creation_timestamp = ct ∧ r.priority = pr ∧ r.action = act ∧
      r.direction = dir ∧ r.disabled = dis ∧
      [r.ip_addr, r.ip_bits] ∈ pairs := by
  intro ids
  induction ids with
  | nil =>
    intro res h r hr
    rw [loopIdentifiers] at h
    cases h
    exact absurd hr (List.not_mem_nil r)
  | cons ident rest ih =>
    intro res h r hr
    rw [loopIdentifiers] at h
    obtain ⟨here, hhere, h⟩ := pyBind_eq_ok.mp h
    obtain ⟨there, hthere, h⟩ := pyBind_eq_ok.mp h
    rw [pyPure_eq_ok] at h
    cases h
    rcases List.mem_append.mp hr with hin | hin
    · obtain ⟨h1, h2, h3, h4, h5, h6, h7⟩ := loopCidrs_fields hhere r hin
      exact ⟨h1, h2, h4, h5, h6, h7⟩
    · exact ih hthere r hin

/-- Success characterization of `from_json`: the eager stages succeeded and
every produced record carries the once-read scalar fields and one CIDR pair
from the selected range list. -/
theorem from_json_fields {d : JObj} {res : List FirewallRule}
    (h : from_json d = .ok res) :
    ∃ dir pairs, directionStr d = .ok dir ∧
      cidrSplits (rangesVal d dir) = .ok pairs ∧
      ∀ r ∈ res, r.creation_timestamp = lookup d "creationTimestamp" ∧
        r.priority = lookup d "priority" ∧ r.action = pyAction d ∧
        r.direction = dir ∧ r.disabled = pyDisabled (lookup d "disabled") ∧
        [r.ip_addr, r.ip_bits] ∈ pairs := by
  rw [from_json] at h
  obtain ⟨dir, hdir, h⟩ := pyBind_eq_ok.mp h
  obtain ⟨pairs, hpairs, h⟩ := pyBind_eq_ok.mp h
  obtain ⟨ids, hids, h⟩ := pyBind_eq_ok.mp h
  exact ⟨dir, pairs, hdir, hpairs, fun r hr =>
    loopIdentifiers_fields h r hr⟩

/-! ### Emptiness and counting lemmas -/

/-- When the identifier collection is empty the loops never run: the eager
stages decide everything and the result is the empty list, whatever the
CIDR splits or permission entries hold. -/
theorem from_json_empty {d : JObj} {dir : String} {pairs : List (List String)}
    (hdir : directionStr d = .ok dir)
    (hpairs : cidrSplits (rangesVal d dir) = .ok pairs)
    (hids : identifiersOf d = .ok []) :
    from_json d = .ok [] := by
  rw [from_json]
  simp only [hdir, hpairs, hids, pyOk_bind]
  rw [loopIdentifiers]

theorem loopProtocols_count {ct pr : Option JValue} {a b : String}
    {ident : JValue} {act dir : String} {dis : Bool} :
    ∀ {pms : List JValue} {ns : List Nat},
    List.Forall₂ protoEntryLen pms ns →
    ∃ res, loopProtocols ct pr a b ident act dir dis pms = .ok res ∧
      res.length = ns.sum := by
  intro pms ns h
  induction h with
  | nil => exact ⟨[], rfl, rfl⟩
  | cons hpm _ ih =>
    obtain ⟨res2, hres2, hlen2⟩ := ih
    obtain ⟨kvs, protos, S, rfl, hfp, hpi, hplen⟩ := hpm
    refine ⟨protos.map (fun p => FirewallRule.mk ct pr a b ident act p S
      dir dis) ++ res2, ?_, ?_⟩
    · rw [loopProtocols]
      simp only [hfp, hpi, hres2, pyOk_bind, pyPure_eq_ok]
    · rw [List.length_append, List.length_map, hplen, hlen2, List.sum_cons]

theorem loopCidrs_count {ct pr : Option JValue} {ident : JValue}
    {act dir : String} {dis : Bool} {protoVal : Option JValue}
    {pms : List JValue} {ns : List Nat}
    (hproto : pyIterDefault protoVal = .ok pms)
    (hlen : List.Forall₂ protoEntryLen pms ns) :
    ∀ {pairs : List (List String)},
    (∀ p ∈ pairs, ∃ a b, p = [a, b]) →
    ∃ res, loopCidrs ct pr ident act dir dis protoVal pairs = .ok res ∧
      res.length = pairs.length * ns.sum := by
  intro pairs
  induction pairs with
  | nil => exact fun _ => ⟨[], rfl, by simp⟩
  | cons pair rest ih =>
    intro hwf
    obtain ⟨a, b, rfl⟩ := hwf pair (List.mem_cons_self _ _)
    obtain ⟨res2, hres2, hlen2⟩ :=
      ih (fun p hp => hwf p (List.mem_cons_of_mem _ hp))
    obtain ⟨res1, hres1, hlen1⟩ :=
      @loopProtocols_count ct pr a b ident act dir dis pms ns hlen
    refine ⟨res1 ++ res2, ?_, ?_⟩
    · rw [loopCidrs]
      simp only [hproto, hres1, hres2, pyOk_bind, pyPure_eq_ok]
    · rw [List.length_append, hlen1, hlen2, List.length_cons, Nat.succ_mul,
        Nat.add_comm]

theorem loopIdentifiers_count {ct pr : Option JValue} {act dir : String}
    {dis : Bool} {protoVal : Option JValue} {pms : List JValue}
    {ns : List Nat} {pairs : List (List String)}
    (hproto : pyIterDefault protoVal = .ok pms)
    (hlen : List.Forall₂ protoEntryLen pms ns)
    (hwf : ∀ p ∈ pairs, ∃ a b, p = [a, b]) :
    ∀ {ids : List JValue},
    ∃ res, loopIdentifiers ct pr act dir dis protoVal pairs ids = .ok res ∧
      res.length = ids.length * (pairs.length * ns.sum) := by
  intro ids
  induction ids with
  | nil => exact ⟨[], rfl, by simp⟩
  | cons ident rest ih =>
    obtain ⟨res2, hres2, hlen2⟩ := ih
    obtain ⟨res1, hres1, hlen1⟩ :=
      @loopCidrs_count ct pr ident act dir dis protoVal pms ns hproto hlen
        pairs hwf
    refine ⟨res1 ++ res2, ?_, ?_⟩
    · rw [loopIdentifiers]
      simp only [hres1, hres2, pyOk_bind, pyPure_eq_ok]
    · rw [List.length_append, hlen1, hlen2, List.length_cons, Nat.succ_mul,
        Nat.add_comm]

/-- The record count of a successful flattening: identifiers times CIDR
pairs times the total number of protocol names. -/
theorem from_json_count {d : JObj} {dir : String} {pairs : List (List String)}
    {ids pms : List JValue} {ns : List Nat}
    (hdir : directionStr d = .ok dir)
    (hpairs : cidrSplits (rangesVal d dir) = .ok pairs)
    (hwf : ∀ p ∈ pairs, ∃ a b, p = [a, b])
    (hids : identifiersOf d = .ok ids)
    (hproto : pyIterDefault (permissionList d) = .ok pms)
    (hlen : List.Forall₂ protoEntryLen pms ns) :
    ∃ res, from_json d = .ok res ∧
      res.length = ids.length * pairs.length * ns.sum := by
  obtain ⟨res, hres, hcount⟩ :=
    @loopIdentifiers_count (lookup d "creationTimestamp")
      (lookup d "priority") (pyAction d) dir
      (pyDisabled (lookup d "disabled")) (permissionList d) pms ns pairs
      hproto hlen hwf ids
  refine ⟨res, ?_, ?_⟩
  · rw [from_json]
    simp only [hdir, hpairs, hids, pyOk_bind]
    exact hres
  · rw [hcount, Nat.mul_assoc]

/-! ### Remaining helper lemmas -/

theorem pyDisabled_false_iff {v : Option JValue} :
    pyDisabled v = false ↔ v = some (JValue.str "false") := by
  cases v with
  | none => simp [pyDisabled]
  | some x =>
    cases x with
    | str s =>
      rw [pyDisabled]
      by_cases hs : s = "false"
      · subst hs; simp
      · simp [hs]
    | null => simp [pyDisabled]
    | bool b => simp [pyDisabled]
    | num n => simp [pyDisabled]
    | arr l => simp [pyDisabled]
    | obj kvs => simp [pyDisabled]

theorem loopCidrs_bad_first {ct pr : Option JValue} {ident : JValue}
    {act dir : String} {dis : Bool} {protoVal : Option JValue}
    {pair : List String} {rest : List (List String)}
    (hbad : ∀ a b, pair ≠ [a, b]) :
    loopCidrs ct pr ident act dir dis protoVal (pair :: rest) =
      .error .unpackError := by
  cases pair with
  | nil =>
    rw [loopCidrs]
    intro a b h
    exact List.noConfusion h
  | cons x xs =>
    cases xs with
    | nil =>
      rw [loopCidrs]
      intro a b h
      injection h with h1 h2
      exact List.noConfusion h2
    | cons y ys =>
      cases ys with
      | nil => exact absurd rfl (hbad x y)
      | cons z zs =>
        rw [loopCidrs]
        intro a b h
        injection h with h1 h2
        injection h2 with h3 h4
        exact List.noConfusion h4

/-- A malformed CIDR split at the head of the list is reached as soon as at
least one identifier drives the loops, and surfaces as the unpack error. -/
theorem from_json_bad_first_cidr {d : JObj} {dir : String}
    {p0 : List String} {prest : List (List String)} {id0 : JValue}
    {ids : List JValue}
    (hdir : directionStr d = .ok dir)
    (hpairs : cidrSplits (rangesVal d dir) = .ok (p0 :: prest))
    (hbad : ∀ a b, p0 ≠ [a, b])
    (hids : identifiersOf d = .ok (id0 :: ids)) :
    from_json d = .error .unpackError := by
  rw [from_json]
  simp only [hdir, hpairs, hids, pyOk_bind]
  rw [loopIdentifiers, loopCidrs_bad_first hbad]
  rfl

/-- With no `allowed` and no `denied` key the permission list defaults to
the empty list and a well-formed input flattens to no records. -/
theorem from_json_no_action {d : JObj} {dir : String}
    {pairs : List (List String)} {ids : List JValue}
    (hdir : directionStr d = .ok dir)
    (hpairs : cidrSplits (rangesVal d dir) = .ok pairs)
    (hwf : ∀ p ∈ pairs, ∃ a b, p = [a, b])
    (hids : identifiersOf d = .ok ids)
    (hna : hasKey d "allowed" = false)
    (hnd : hasKey d "denied" = false) :
    from_json d = .ok [] := by
  have haction : pyAction d = "denied" := by
    rw [pyAction, hna]
    rfl
  have hperm : permissionList d = none := by
    rw [permissionList, haction]
    exact lookup_eq_none_of_not_hasKey hnd
  have hproto : pyIterDefault (permissionList d) = .ok [] := by
    rw [hperm]
    rfl
  obtain ⟨res, hres, hcount⟩ :=
    from_json_count hdir hpairs hwf hids hproto List.Forall₂.nil
  have : res = [] := by
    rw [List.sum_nil, Nat.mul_zero] at hcount
    exact List.length_eq_zero.mp hcount
  rw [this] at hres
  exact hres

/-- Lines 115-117: an absent `direction` key stops `from_json` before any
record is built (`None.upper()`). -/
theorem from_json_no_direction {d : JObj}
    (h : lookup d "direction" = none) :
    from_json d = .error .attributeError := by
  have hds : directionStr d = .error .attributeError := by
    rw [directionStr, h]
  rw [from_json]
  simp only [hds, pyError_bind]

/-! ### The claims -/

/-- Claim C1, counterexample: a resource whose `disabled` field is the
JSON boolean false produces a record with disabled = true, while the claim
says boolean false yields disabled = false.  Python compares
`json_dict.get('disabled') == 'false'` and the boolean False is not equal
to the string 'false'. -/
theorem claim_C1_counterexample :
    (from_json boolFalseDisabledInput).map
      (fun rs => rs.map (fun r => r.disabled)) = .ok [true] := rfl

/-- Claim C1 (amended): a produced record's disabled flag is false exactly
when the input's `disabled` field is present and equal to the JSON string
"false"; every other value (including the boolean false, the boolean true,
an absent field, the string "true", or anything else) yields
disabled = true. -/
theorem claim_C1_disabled (d : JObj) (res : List FirewallRule)
    (h : from_json d = .ok res) : ∀ r ∈ res,
    (r.disabled = false ↔
      lookup d "disabled" = some (JValue.str "false")) := by
  obtain ⟨dir, pairs, -, -, hfields⟩ := from_json_fields h
  intro r hr
  obtain ⟨-, -, -, -, hdis, -⟩ := hfields r hr
  rw [hdis]
  exact pyDisabled_false_iff

/-- Witness for the amended C1 at a concrete input whose disabled field is
the string "false". -/
theorem claim_C1_witness :
    (FirewallRule.mk none none "10.0.0.0" "9" (JValue.str "web") "allowed"
      (JValue.str "tcp") ∅ "ingress" false).disabled = false ↔
      lookup strFalseDisabledInput "disabled" =
        some (JValue.str "false") :=
  claim_C1_disabled strFalseDisabledInput
    [FirewallRule.mk none none "10.0.0.0" "9" (JValue.str "web") "allowed"
      (JValue.str "tcp") ∅ "ingress" false]
    rfl _ (List.mem_cons_self _ _)

/-- Claim C2: for N identifiers, M two-part CIDR entries and permission
entries collectively naming P protocol names, a successful flatten returns
exactly N × M × P records; ports land as one set per record and do not
multiply the count. -/
theorem claim_C2_count {d : JObj} {dir : String} {pairs : List (List String)}
    {ids pms : List JValue} {ns : List Nat}
    (hdir : directionStr d = .ok dir)
    (hpairs : cidrSplits (rangesVal d dir) = .ok pairs)
    (hwf : ∀ p ∈ pairs, ∃ a b, p = [a, b])
    (hids : identifiersOf d = .ok ids)
    (hproto : pyIterDefault (permissionList d) = .ok pms)
    (hlen : List.Forall₂ protoEntryLen pms ns) :
    ∃ res, from_json d = .ok res ∧
      res.length = ids.length * pairs.length * ns.sum :=
  from_json_count hdir hpairs hwf hids hproto hlen

/-- Witness for C2: one identifier, one CIDR, one entry naming two
protocols with two ports gives 1 × 1 × 2 = 2 records. -/
theorem claim_C2_witness :
    ∃ res, from_json twoProtocolInput = .ok res ∧
      res.length = 1 * 1 * [2].sum :=
  @claim_C2_count twoProtocolInput "INGRESS" [["10.0.0.0", "9"]]
    [.str "sa1"]
    [.obj [("IPProtocol", .arr [.str "tcp", .str "udp"]),
      ("ports", .arr [.str "1", .str "50051"])]]
    [2] rfl rfl
    (by
      intro p hp
      rw [List.mem_singleton] at hp
      exact ⟨"10.0.0.0", "9", hp⟩)
    rfl rfl
    (List.Forall₂.cons
      ⟨[("IPProtocol", .arr [.str "tcp", .str "udp"]),
        ("ports", .arr [.str "1", .str "50051"])],
       [.str "tcp", .str "udp"], ([1, 50051] : List Int).toFinset,
       rfl, rfl, rfl, rfl⟩
      List.Forall₂.nil)

/-- Claim C3, counterexample: on the input ["5-1"] the port expander does
NOT fail; Python's `range(5, 2)` is empty, so the call silently returns
the empty set while the claim demands an `InvalidPortSpecError`. -/
theorem claim_C3_counterexample :
    flatten_ports (some (.arr [.str "5-1"])) = .ok (∅ : Finset Int) := rfl

/-- Claim C3 (amended): a hyphenated range whose low bound exceeds its
high bound raises no error and contributes no ports: the expander returns
the empty set. -/
theorem claim_C3_inverted_range {s1 s2 : String} {a b : Int}
    (h1 : '-' ∉ s1.data) (h2 : '-' ∉ s2.data)
    (hp1 : pyInt s1 = some a) (hp2 : pyInt s2 = some b) (hba : b < a) :
    flatten_ports (some (.arr [.str (s1 ++ "-" ++ s2)])) =
      .ok (∅ : Finset Int) := by
  have hdata : (s1 ++ "-" ++ s2).data = s1.data ++ '-' :: s2.data := by
    rw [String.data_append, String.data_append,
      show ("-" : String).data = ['-'] from rfl, List.append_assoc]
    rfl
  have hc : (s1 ++ "-" ++ s2).data.contains '-' = true := by
    rw [hdata]
    simp
  have htok : flattenPortToken (.str (s1 ++ "-" ++ s2)) = .ok [] := by
    rw [flattenPortToken, if_pos hc, pySplit_two h1 h2]
    simp [hp1, hp2, pyRange_empty hba]
  rw [flatten_ports,
    show pyIterDefault (some (JValue.arr [.str (s1 ++ "-" ++ s2)])) =
      .ok [.str (s1 ++ "-" ++ s2)] from rfl]
  simp only [pyOk_bind]
  rw [exceptMapM, htok]
  simp only [pyOk_bind]
  rw [exceptMapM]
  simp only [pyOk_bind, pyPure_eq_ok]
  rfl

/-- Witness for the amended C3 at the concrete inverted range 5-1. -/
theorem claim_C3_witness :
    flatten_ports (some (.arr [.str ("5" ++ "-" ++ "1")])) =
      .ok (∅ : Finset Int) :=
  claim_C3_inverted_range (by decide) (by decide) rfl rfl (by decide)

/-- Claim C4: the direction value is uppercased and compared to INGRESS;
on equality the CIDR pairs come from sourceRanges, otherwise from
destinationRanges, and every record stores the raw direction value; an
absent direction key fails (the code's AttributeError models the spec's
MalformedInputError for a missing mandatory direction). -/
theorem claim_C4_direction (d : JObj) :
    (lookup d "direction" = none → from_json d = .error .attributeError) ∧
    (∀ s res, lookup d "direction" = some (.str s) →
      from_json d = .ok res →
      (pyUpper s = "INGRESS" →
        ∃ pairs, cidrSplits (lookup d "sourceRanges") = .ok pairs ∧
          ∀ r ∈ res, r.direction = s ∧ [r.ip_addr, r.ip_bits] ∈ pairs) ∧
      (pyUpper s ≠ "INGRESS" →
        ∃ pairs, cidrSplits (lookup d "destinationRanges") = .ok pairs ∧
          ∀ r ∈ res, r.direction = s ∧ [r.ip_addr, r.ip_bits] ∈ pairs)) := by
  refine ⟨from_json_no_direction, ?_⟩
  intro s res hsome h
  obtain ⟨dir, pairs, hdir, hpairs, hfields⟩ := from_json_fields h
  have hdirs : dir = s := by
    rw [directionStr, hsome] at hdir
    exact (Except.ok.inj hdir).symm
  subst hdirs
  constructor
  · intro hing
    have hcond : (pyUpper dir == "INGRESS") = true := beq_iff_eq.mpr hing
    rw [rangesVal, if_pos hcond] at hpairs
    refine ⟨pairs, hpairs, ?_⟩
    intro r hr
    obtain ⟨-, -, -, hdirEq, -, hmem⟩ := hfields r hr
    exact ⟨hdirEq, hmem⟩
  · intro hing
    have hcond : ¬ (pyUpper dir == "INGRESS") = true :=
      fun hb => hing (beq_iff_eq.mp hb)
    rw [rangesVal, if_neg hcond] at hpairs
    refine ⟨pairs, hpairs, ?_⟩
    intro r hr
    obtain ⟨-, -, -, hdirEq, -, hmem⟩ := hfields r hr
    exact ⟨hdirEq, hmem⟩

/-- Witness for C4 at a concrete input with a lowercase-mixed direction
value, taking the ingress branch. -/
theorem claim_C4_witness :
    ∃ pairs, cidrSplits (lookup lowercaseDirectionInput "sourceRanges") =
      .ok pairs ∧
      ∀ r ∈ [FirewallRule.mk none none "192.168.0.0" "16"
        (JValue.str "db") "allowed" (JValue.str "udp") ∅ "iNgReSs" true],
        r.direction = "iNgReSs" ∧ [r.ip_addr, r.ip_bits] ∈ pairs :=
  ((claim_C4_direction lowercaseDirectionInput).2 "iNgReSs"
    [FirewallRule.mk none none "192.168.0.0" "16" (JValue.str "db")
      "allowed" (JValue.str "udp") ∅ "iNgReSs" true]
    rfl rfl).1 rfl

/-- Claim C5, counterexample: a valid input holding a CIDR entry that does
not split into two parts on the slash, but no identifier field, flattens
to the empty list with no error — the claimed "exactly when" fails,
because CIDR unpacking is validated only inside the loops. -/
theorem claim_C5_counterexample : from_json badCidrNoTargetInput = .ok [] :=
  rfl

/-- Claim C5 (amended): flatten fails with the malformed-input errors when
the input text is not valid JSON or when the mandatory direction field is
missing; a CIDR entry that cannot be split into exactly two parts on the
slash raises the error only when the cross-product iteration reaches it
(at least one identifier) — with no identifiers such an entry is accepted
silently and the result is empty. -/
theorem claim_C5_malformed :
    (flatten none = .error .jsonDecodeError) ∧
    (∀ d : JObj, lookup d "direction" = none →
      from_json d = .error .attributeError) ∧
    (∀ (d : JObj) (dir : String) (p0 : List String)
      (prest : List (List String)) (id0 : JValue) (ids : List JValue),
      directionStr d = .ok dir →
      cidrSplits (rangesVal d dir) = .ok (p0 :: prest) →
      (∀ a b, p0 ≠ [a, b]) →
      identifiersOf d = .ok (id0 :: ids) →
      from_json d = .error .unpackError) ∧
    (∀ (d : JObj) (dir : String) (pairs : List (List String)),
      directionStr d = .ok dir →
      cidrSplits (rangesVal d dir) = .ok pairs →
      identifiersOf d = .ok [] →
      from_json d = .ok []) := by
  refine ⟨rfl, ?_, ?_, ?_⟩
  · intro d hnone
    exact from_json_no_direction hnone
  · intro d dir p0 prest id0 ids hdir hpairs hbad hids
    exact from_json_bad_first_cidr hdir hpairs hbad hids
  · intro d dir pairs hdir hpairs hids
    exact from_json_empty hdir hpairs hids

/-- Witness for the amended C5: a missing direction fails, a malformed
CIDR with one identifier fails at the unpack, and with no identifiers the
same malformed CIDR is silently accepted. -/
theorem claim_C5_witness :
    from_json [] = .error .attributeError ∧
    from_json badCidrWithTargetInput = .error .unpackError ∧
    from_json egressNoTargetInput = .ok [] :=
  ⟨claim_C5_malformed.2.1 [] rfl,
   claim_C5_malformed.2.2.1 badCidrWithTargetInput "INGRESS" ["nocidr"] []
     (.str "t") [] rfl rfl
     (by
       intro a b h
       injection h with h1 h2
       exact List.noConfusion h2)
     rfl,
   claim_C5_malformed.2.2.2 egressNoTargetInput "EGRESS" [["0.0.0.0", "0"]]
     rfl rfl rfl⟩

/-- Claim C6: on a sequence of valid port specs the expander returns the
deduplicated union of each element's expansion — a range A-B contributes
every integer in [A, B], a single value N contributes N alone — and the
membership characterization is independent of the input order. -/
theorem claim_C6_expand {toks : List String} {specs : List PortSpec}
    (h : List.Forall₂ tokenMatches toks specs) :
    ∃ S, flatten_ports (some (.arr (toks.map JValue.str))) = .ok S ∧
      ∀ n : Int, n ∈ S ↔ ∃ sp ∈ specs, n ∈ specPortSet sp :=
  flatten_ports_spec h

/-- Witness for C6 on the spec's own example ["1-5", "50051"]. -/
theorem claim_C6_witness :
    ∃ S, flatten_ports (some (.arr (["1-5", "50051"].map JValue.str))) =
      .ok S ∧ ∀ n : Int, n ∈ S ↔
        ∃ sp ∈ [PortSpec.range 1 5, PortSpec.single 50051],
          n ∈ specPortSet sp :=
  claim_C6_expand (List.Forall₂.cons
    ⟨"1", "5", rfl, by decide, by decide, rfl, rfl, by decide⟩
    (List.Forall₂.cons ⟨by decide, rfl⟩ List.Forall₂.nil))

/-- Claim C7: the port expander on an empty sequence (and on an absent
ports field) returns the empty set and never materializes the full
0-65535 range; the materialization code in the source is commented out. -/
theorem claim_C7_empty :
    flatten_ports (some (.arr [])) = .ok (∅ : Finset Int) ∧
    flatten_ports none = .ok (∅ : Finset Int) :=
  ⟨rfl, rfl⟩

/-- Claim C8: with neither `allowed` nor `denied`, or with neither
identifier field, a well-formed input flattens to the empty list without
error; when `allowed` is present the action is allowed and the permission
list is read from `allowed`, otherwise when `denied` is present the action
is denied and the list is read from `denied`. -/
theorem claim_C8_action {d : JObj} {dir : String}
    {pairs : List (List String)} {ids : List JValue}
    (hdir : directionStr d = .ok dir)
    (hpairs : cidrSplits (rangesVal d dir) = .ok pairs)
    (hwf : ∀ p ∈ pairs, ∃ a b, p = [a, b])
    (hids : identifiersOf d = .ok ids) :
    ((hasKey d "allowed" = false ∧ hasKey d "denied" = false) →
      from_json d = .ok []) ∧
    ((hasKey d "targetServiceAccounts" = false ∧
      hasKey d "targetTags" = false) → from_json d = .ok []) ∧
    (hasKey d "allowed" = true →
      pyAction d = "allowed" ∧ permissionList d = lookup d "allowed" ∧
      ∀ res, from_json d = .ok res → ∀ r ∈ res, r.action = "allowed") ∧
    (hasKey d "allowed" = false → hasKey d "denied" = true →
      pyAction d = "denied" ∧ permissionList d = lookup d "denied" ∧
      ∀ res, from_json d = .ok res → ∀ r ∈ res, r.action = "denied") := by
  refine ⟨?_, ?_, ?_, ?_⟩
  · rintro ⟨hna, hnd⟩
    exact from_json_no_action hdir hpairs hwf hids hna hnd
  · rintro ⟨hnsa, hnt⟩
    have hids0 : identifiersOf d = .ok [] := by
      rw [identifiersOf, hnsa, hnt]
      rfl
    exact from_json_empty hdir hpairs hids0
  · intro ha
    have hact : pyAction d = "allowed" := by
      rw [pyAction, ha]
      rfl
    refine ⟨hact, by rw [permissionList, hact], ?_⟩
    intro res h r hr
    obtain ⟨dir2, pairs2, -, -, hfields⟩ := from_json_fields h
    obtain ⟨-, -, hactEq, -⟩ := hfields r hr
    rw [hactEq, hact]
  · intro hna hd
    have hact : pyAction d = "denied" := by
      rw [pyAction, hna]
      rfl
    refine ⟨hact, by rw [permissionList, hact], ?_⟩
    intro res h r hr
    obtain ⟨dir2, pairs2, -, -, hfields⟩ := from_json_fields h
    obtain ⟨-, -, hactEq, -⟩ := hfields r hr
    rw [hactEq, hact]

/-- Witness for C8: a resource without any action key flattens to nothing,
and a `denied` resource yields denied records read from `denied`. -/
theorem claim_C8_witness :
    from_json noActionInput = .ok [] ∧
    pyAction deniedActionInput = "denied" ∧
    permissionList deniedActionInput = lookup deniedActionInput "denied" ∧
    (FirewallRule.mk none none "10.1.0.0" "16" (JValue.str "t") "denied"
      (JValue.str "icmp") ∅ "INGRESS" true).action = "denied" :=
  ⟨(@claim_C8_action noActionInput "EGRESS"
      [["0.0.0.0", "0"]] [.str "t"] rfl rfl
      (by
        intro p hp
        rw [List.mem_singleton] at hp
        exact ⟨"0.0.0.0", "0", hp⟩)
      rfl).1 ⟨rfl, rfl⟩,
   ((@claim_C8_action deniedActionInput "INGRESS"
      [["10.1.0.0", "16"]] [.str "t"] rfl rfl
      (by
        intro p hp
        rw [List.mem_singleton] at hp
        exact ⟨"10.1.0.0", "16", hp⟩)
      rfl).2.2.2 rfl rfl).1,
   ((@claim_C8_action deniedActionInput "INGRESS"
      [["10.1.0.0", "16"]] [.str "t"] rfl rfl
      (by
        intro p hp
        rw [List.mem_singleton] at hp
        exact ⟨"10.1.0.0", "16", hp⟩)
      rfl).2.2.2 rfl rfl).2.1,
   ((@claim_C8_action deniedActionInput "INGRESS"
      [["10.1.0.0", "16"]] [.str "t"] rfl rfl
      (by
        intro p hp
        rw [List.mem_singleton] at hp
        exact ⟨"10.1.0.0", "16", hp⟩)
      rfl).2.2.2 rfl rfl).2.2
     [FirewallRule.mk none none "10.1.0.0" "16" (JValue.str "t") "denied"
       (JValue.str "icmp") ∅ "INGRESS" true]
     rfl _ (List.mem_cons_self _ _)⟩

/-- Claim C9: a valid-JSON input whose identifier collection is empty
(no target key, or the chosen target key holds an empty list) flattens to
the empty list without error, even when CIDR entries do not split into two
parts or port tokens are unparseable: those are validated only inside the
loops, which never run. -/
theorem claim_C9_deferred {d : JObj} {dir : String}
    {pairs : List (List String)}
    (hdir : directionStr d = .ok dir)
    (hpairs : cidrSplits (rangesVal d dir) = .ok pairs)
    (hids : identifiersOf d = .ok []) :
    from_json d = .ok [] :=
  from_json_empty hdir hpairs hids

/-- Witness for C9: malformed CIDR entry ("noslash") and unparseable port
token ("xx") with no identifiers — silently empty. -/
theorem claim_C9_witness : from_json deferredValidationInput = .ok [] :=
  @claim_C9_deferred deferredValidationInput "INGRESS" [["noslash"]]
    rfl rfl rfl

/-- Claim C10: all records of one successful flatten share the same
creation timestamp, priority, action, direction and disabled flag — the
five values read once before the loops. -/
theorem claim_C10_shared {d : JObj} {res : List FirewallRule}
    (h : from_json d = .ok res) :
    ∀ r1 ∈ res, ∀ r2 ∈ res,
      r1.creation_timestamp = r2.creation_timestamp ∧
      r1.priority = r2.priority ∧ r1.action = r2.action ∧
      r1.direction = r2.direction ∧ r1.disabled = r2.disabled := by
  obtain ⟨dir, pairs, -, -, hfields⟩ := from_json_fields h
  intro r1 h1 r2 h2
  obtain ⟨a1, b1, c1, d1, e1, -⟩ := hfields r1 h1
  obtain ⟨a2, b2, c2, d2, e2, -⟩ := hfields r2 h2
  exact ⟨a1.trans a2.symm, b1.trans b2.symm, c1.trans c2.symm,
    d1.trans d2.symm, e1.trans e2.symm⟩

/-- Witness for C10 on an input producing two records (two target tags). -/
theorem claim_C10_witness :
    (FirewallRule.mk (some (.str "2018-02-28T21:49:07.739-08:00"))
      (some (.num 1000)) "0.0.0.0" "0" (JValue.str "a") "denied"
      (JValue.str "tcp") (([443] : List Int).toFinset) "EGRESS"
      true).creation_timestamp =
    (FirewallRule.mk (some (.str "2018-02-28T21:49:07.739-08:00"))
      (some (.num 1000)) "0.0.0.0" "0" (JValue.str "b") "denied"
      (JValue.str "tcp") (([443] : List Int).toFinset) "EGRESS"
      true).creation_timestamp ∧
    (FirewallRule.mk (some (.str "2018-02-28T21:49:07.739-08:00"))
      (some (.num 1000)) "0.0.0.0" "0" (JValue.str "a") "denied"
      (JValue.str "tcp") (([443] : List Int).toFinset) "EGRESS"
      true).priority =
    (FirewallRule.mk (some (.str "2018-02-28T21:49:07.739-08:00"))
      (some (.num 1000)) "0.0.0.0" "0" (JValue.str "b") "denied"
      (JValue.str "tcp") (([443] : List Int).toFinset) "EGRESS"
      true).priority ∧
    (FirewallRule.mk (some (.str "2018-02-28T21:49:07.739-08:00"))
      (some (.num 1000)) "0.0.0.0" "0" (JValue.str "a") "denied"
      (JValue.str "tcp") (([443] : List Int).toFinset) "EGRESS"
      true).action =
    (FirewallRule.mk (some (.str "2018-02-28T21:49:07.739-08:00"))
      (some (.num 1000)) "0.0.0.0" "0" (JValue.str "b") "denied"
      (JValue.str "tcp") (([443] : List Int).toFinset) "EGRESS"
      true).action ∧
    (FirewallRule.mk (some (.str "2018-02-28T21:49:07.739-08:00"))
      (some (.num 1000)) "0.0.0.0" "0" (JValue.str "a") "denied"
      (JValue.str "tcp") (([443] : List Int).toFinset) "EGRESS"
      true).direction =
    (FirewallRule.mk (some (.str "2018-02-28T21:49:07.739-08:00"))
      (some (.num 1000)) "0.0.0.0" "0" (JValue.str "b") "denied"
      (JValue.str "tcp") (([443] : List Int).toFinset) "EGRESS"
      true).direction ∧
    (FirewallRule.mk (some (.str "2018-02-28T21:49:07.739-08:00"))
      (some (.num 1000)) "0.0.0.0" "0" (JValue.str "a") "denied"
      (JValue.str "tcp") (([443] : List Int).toFinset) "EGRESS"
      true).disabled =
    (FirewallRule.mk (some (.str "2018-02-28T21:49:07.739-08:00"))
      (some (.num 1000)) "0.0.0.0" "0" (JValue.str "b") "denied"
      (JValue.str "tcp") (([443] : List Int).toFinset) "EGRESS"
      true).disabled :=
  @claim_C10_shared twoIdentifierInput
    [FirewallRule.mk (some (.str "2018-02-28T21:49:07.739-08:00"))
      (some (.num 1000)) "0.0.0.0" "0" (JValue.str "a") "denied"
      (JValue.str "tcp") (([443] : List Int).toFinset) "EGRESS" true,
     FirewallRule.mk (some (.str "2018-02-28T21:49:07.739-08:00"))
      (some (.num 1000)) "0.0.0.0" "0" (JValue.str "b") "denied"
      (JValue.str "tcp") (([443] : List Int).toFinset) "EGRESS" true]
    rfl _ (List.mem_cons_self _ _) _
    (List.mem_cons_of_mem _ (List.mem_cons_self _ _))
